import Mathlib

/-!
Shallow embedding of the `politodown` library (an async client for the
PoliTo e-learning portal) and proofs about it.

Source layout:
* `src/politodown/urls.py`      — base URLs of the portal and the IdP.
* `src/politodown/http.py`      — `AsyncClient`, an httpx client whose event
  hooks drive the federated login, 502 throttling retry and auth check.
* `src/politodown/datatypes.py` — the resource tree (`Material`, `Videostore`,
  `Folder`, `Assignment`, `File`), child caching, recursive file walk
  and the idempotent downloader `File.save`.
-/

namespace Politodown

/-! ## Character classes of Python's `re` module

`datatypes.get_valid_filename` is `re.sub(r'[^-\s\w.]', '_', filename)`,
with Python (unicode) semantics for `\s` and `\w`.  `pySpace` below is
Python's whitespace set exactly.  `pyWord` is Python's `\w` exactly for
every code point below U+0100 (the Basic Latin and Latin-1 ranges);
code points at or above U+0100 are conservatively classified as non-word,
an under-approximation of Python's `\w` (which also matches the letters,
digits and marks of higher blocks).  Every theorem about the exact
character-wise behaviour of the sanitizer is therefore restricted to
characters below U+0100. -/

/-- Python's regex/string whitespace class `\s` / `str.isspace`, exactly:
0x09–0x0D, 0x1C–0x1F, space, NEL, NBSP, and the higher Unicode space
separators (OGHAM SPACE MARK, the EN QUAD–HAIR SPACE run, LINE and
PARAGRAPH SEPARATOR, NARROW NO-BREAK SPACE, MEDIUM MATHEMATICAL SPACE,
IDEOGRAPHIC SPACE). -/
def pySpace (c : Char) : Bool :=
  c = ' ' ∨ c = '\t' ∨ c = '\n' ∨ c = '\r' ∨ c.toNat = 0x0b ∨ c.toNat = 0x0c ∨
  (0x1c ≤ c.toNat ∧ c.toNat ≤ 0x1f) ∨ c.toNat = 0x85 ∨ c.toNat = 0xa0 ∨
  c.toNat = 0x1680 ∨ (0x2000 ≤ c.toNat ∧ c.toNat ≤ 0x200a) ∨
  c.toNat = 0x2028 ∨ c.toNat = 0x2029 ∨ c.toNat = 0x202f ∨
  c.toNat = 0x205f ∨ c.toNat = 0x3000

/-- Python's regex word class `\w` (unicode), exact below U+0100: the ASCII
alphanumerics and `_`, plus the Latin-1 word characters — FEMININE/
MASCULINE ORDINAL INDICATOR (0xAA, 0xBA), SUPERSCRIPT TWO/THREE/ONE
(0xB2, 0xB3, 0xB9), MICRO SIGN (0xB5), the VULGAR FRACTIONS (0xBC–0xBE),
and the Latin-1 letters 0xC0–0xD6, 0xD8–0xF6, 0xF8–0xFF (excluding the
multiplication and division signs 0xD7, 0xF7).  Code points at or above
U+0100 are classified as non-word (an under-approximation of Python's
`\w`; no theorem below depends on the classification there). -/
def pyWord (c : Char) : Bool :=
  ('A' ≤ c ∧ c ≤ 'Z') ∨ ('a' ≤ c ∧ c ≤ 'z') ∨ ('0' ≤ c ∧ c ≤ '9') ∨ c = '_' ∨
  c.toNat = 0xaa ∨ c.toNat = 0xb2 ∨ c.toNat = 0xb3 ∨ c.toNat = 0xb5 ∨
  c.toNat = 0xb9 ∨ c.toNat = 0xba ∨ (0xbc ≤ c.toNat ∧ c.toNat ≤ 0xbe) ∨
  (0xc0 ≤ c.toNat ∧ c.toNat ≤ 0xd6) ∨ (0xd8 ≤ c.toNat ∧ c.toNat ≤ 0xf6) ∨
  (0xf8 ≤ c.toNat ∧ c.toNat ≤ 0xff)

/-- The action of `re.sub(r'[^-\s\w.]', '_', ·)` on a single character:
characters matching `[-\s\w.]` are kept, every other character becomes
an underscore. -/
def sanChar (c : Char) : Char :=
  if c = '-' ∨ pySpace c ∨ pyWord c ∨ c = '.' then c else '_'

/-- `datatypes.get_valid_filename`: replace invalid filename characters
with an underscore (`re.sub(r'[^-\s\w.]', '_', filename)`).  Since the
pattern is a single negated character class, the substitution acts
character-wise. -/
def get_valid_filename (filename : String) : String :=
  ⟨filename.data.map sanChar⟩

/-- Python's `str.isspace`: true iff the string is nonempty and all of its
characters are whitespace. -/
def pyIsSpace (s : String) : Bool :=
  s ≠ "" ∧ s.data.all pySpace

/-- The character class `[A-Za-z0-9_.\s-]` as written in the specification
(its letter/digit ranges are ASCII). -/
def specAsciiAllowed (c : Char) : Bool :=
  ('A' ≤ c ∧ c ≤ 'Z') ∨ ('a' ≤ c ∧ c ≤ 'z') ∨ ('0' ≤ c ∧ c ≤ '9') ∨
  c = '_' ∨ c = '.' ∨ pySpace c ∨ c = '-'

/-! ## URLs (`urls.py`)

`httpx.URL` values are modelled by their host, path and query parameters;
two URLs are equal iff all three components are equal, matching `httpx.URL`
equality on the URLs the client builds. -/

structure Url where
  host : String
  path : String
  params : List (String × String)
deriving DecidableEq, Repr

/-- `url.copy_with(params=None)`. -/
def stripParams (u : Url) : Url := { u with params := [] }

namespace urls

/-- `urls.loginpage = IDP/"idp/x509mixed-login"`. -/
def loginpage : Url := ⟨"idp.polito.it", "/idp/x509mixed-login", []⟩

/-- `urls.login = IDP/"idp/Authn/X509Mixed/UserPasswordLogin"`. -/
def login : Url := ⟨"idp.polito.it", "/idp/Authn/X509Mixed/UserPasswordLogin", []⟩

end urls

/-! ## The authenticating session (`http.py`)

`AsyncClient` wraps `httpx.AsyncClient` with `follow_redirects=True`; its
response event hooks run, in order, on every response of an exchange:
`_handle_throttling`, `_handle_login_request`, `_handle_exipiring_password`,
`_handle_sso_request`, `_check_auth`, `_savecookies`, `_debugging_logger`.
A hook may turn the response into a synthetic 302 redirect
(`_redirect_to`), which the client then follows.  The request hook
`_catch_forced_redirect` turns specific GET-with-params requests into
POSTs before they are sent. -/

/-- An HTTP response as seen by the response hooks: its (final) URL, the
status code, the `Location` header if any, and the text of the portal's
`loginerror` element (read only by `_check_auth`). -/
structure Response where
  url : Url
  status : Nat
  location : Option Url
  errmsg : String
deriving DecidableEq, Repr

/-- `httpx.Response.is_redirect`: a 3xx redirect status code together with a
`Location` header. -/
def isRedirect (r : Response) : Bool :=
  (r.status = 301 ∨ r.status = 302 ∨ r.status = 303 ∨ r.status = 307 ∨
    r.status = 308) ∧ r.location.isSome

/-- `httpx.Response.is_success`: status in 2xx. -/
def isSuccess (r : Response) : Bool :=
  200 ≤ r.status ∧ r.status ≤ 299

/-- `AsyncClient._redirect_to(response, url)`: mutate the response into a 302
redirect to `url`. -/
def redirect_to (r : Response) (u : Url) : Response :=
  { r with status := 302, location := some u }

/-- The session's credential state: `_username`/`_password` are set by
`signin` and absent before it (`hasattr` checks in the accessors). -/
structure Session where
  creds : Option (String × String)
deriving DecidableEq, Repr

/-- The `LoginError` exception of `http.py`, carrying its message. -/
inductive LoginErr where
  | login (msg : String)
deriving DecidableEq, Repr

/-- `AsyncClient.username`: the username, or `LoginError` if `signin` was
never called. -/
def Session.username (s : Session) : Except LoginErr String :=
  match s.creds with
  | none => .error (.login "You must login first.")
  | some (u, _) => .ok u

/-- `AsyncClient.password`: the password, or `LoginError` if `signin` was
never called. -/
def Session.password (s : Session) : Except LoginErr String :=
  match s.creds with
  | none => .error (.login "You must login first.")
  | some (_, p) => .ok p

/-- `AsyncClient._handle_throttling`: on a 502, sleep 5 seconds and turn the
response into a redirect to its own URL.  Returns the (possibly rewritten)
response and the seconds slept. -/
def handle_throttling (r : Response) : Response × Nat :=
  if r.status = 502 then (redirect_to r r.url, 5) else (r, 0)

/-- `AsyncClient._handle_login_request`: if the response landed on the IdP
login page, synthesize a redirect to the login submission endpoint carrying
the credentials as query parameters. -/
def handle_login_request (s : Session) (r : Response) :
    Except LoginErr Response :=
  if r.url = urls.loginpage then do
    let u ← s.username
    let p ← s.password
    pure (redirect_to r
      { urls.login with params := [("j_username", u), ("j_password", p)] })
  else pure r

/-- `AsyncClient._handle_exipiring_password`: on the password-expiry
interstitial, synthesize a redirect to the login endpoint with the
bypass-expiry flag. -/
def handle_exipiring_password (s : Session) (r : Response) :
    Except LoginErr Response :=
  if r.url.path = "/Chpass/chpassservlet/main.htm" then do
    let u ← s.username
    let p ← s.password
    pure (redirect_to r
      { urls.login with
        params := [("j_username", u), ("j_password", p), ("p_username", u),
                   ("p_locale", "it"), ("j_bypassScad", "S")] })
  else pure r

/-- `AsyncClient._handle_sso_request`: on a successful landing on the IdP's
SAML redirect-binding endpoint, redirect to the URL extracted from the HTML
form (the bs4 form parse is modelled by the oracle `ssoForm`). -/
def handle_sso_request (ssoForm : Response → Url) (r : Response) : Response :=
  if isSuccess r ∧ r.url.path = "/idp/profile/SAML2/Redirect/SSO" then
    redirect_to r (ssoForm r)
  else r

/-- `AsyncClient._check_auth`: if the final (non-redirect) response still
sits on `urls.login`, extract the portal's error message and raise
`LoginError`. -/
def check_auth (r : Response) : Except LoginErr Unit :=
  if ¬ isRedirect r ∧ r.url = urls.login then .error (.login r.errmsg)
  else .ok ()

/-- The response hooks that run before `_check_auth`
(`_handle_throttling`, `_handle_login_request`,
`_handle_exipiring_password`, `_handle_sso_request`), composed in the order
of the `event_hooks` list; the `Nat` is the total seconds slept. -/
def preHooks (s : Session) (ssoForm : Response → Url) (r : Response) :
    Except LoginErr (Response × Nat) := do
  let (r1, d) := handle_throttling r
  let r2 ← handle_login_request s r1
  let r3 ← handle_exipiring_password s r2
  pure (handle_sso_request ssoForm r3, d)

/-- The full response hook chain of `AsyncClient`: the pre-hooks followed by
`_check_auth` (`_savecookies` and `_debugging_logger` do not modify the
response). -/
def applyChain (s : Session) (ssoForm : Response → Url) (r : Response) :
    Except LoginErr (Response × Nat) := do
  let (r4, d) ← preHooks s ssoForm r
  let _ ← check_auth r4
  pure (r4, d)

/-- HTTP methods used by the client. -/
inductive Method where
  | get
  | post
deriving DecidableEq, Repr

/-- A request: method, URL and (for POSTs created by
`_get_to_post_redirect`) the form body. -/
structure Request where
  method : Method
  url : Url
  body : List (String × String)
deriving DecidableEq, Repr

/-- `AsyncClient._get_to_post_redirect`: turn a GET whose query parameters
carry the form data into a POST with those parameters as its body. -/
def get_to_post_redirect (req : Request) : Request :=
  { method := .post, url := stripParams req.url, body := req.url.params }

/-- `AsyncClient._catch_forced_redirect` (request hook): requests to the
login submission endpoint carrying parameters, and requests to the SAML
POST-binding endpoint, are converted from GET-with-params to POST. -/
def catch_forced_redirect (req : Request) : Request :=
  if stripParams req.url = urls.login ∧ req.url.params ≠ [] then
    get_to_post_redirect req
  else if req.url.path = "/Shibboleth.sso/SAML2/POST" then
    get_to_post_redirect req
  else req

/-- The server-chosen part of the `i`-th response of an exchange: status,
`Location` header and login-error text.  The response's URL is the URL the
client requested. -/
structure RespCore where
  status : Nat
  location : Option Url
  errmsg : String
deriving DecidableEq, Repr

/-- Build the response to a request for `u` from the server data `c`. -/
def mkResponse (u : Url) (c : RespCore) : Response :=
  ⟨u, c.status, c.location, c.errmsg⟩

/-- Errors with which a driven exchange can end. -/
inductive DriveErr where
  | login (e : LoginErr)
  | fuelOut
deriving DecidableEq, Repr

/-- Outcome of a driven exchange: the result, the requests issued (in
order, after the request hook) and the total seconds slept. -/
structure DriveOut where
  result : Except DriveErr Response
  requests : List Request
  slept : Nat
deriving Repr

/-- The redirect-following driver of an exchange through the session
(httpx's `follow_redirects=True` send loop with the event hooks applied):
run the request hook, fetch, run the response hook chain and, while the
hooks leave a redirect, follow its `Location` with a GET.  `net i` is the
server data for the `i`-th fetch; `fuel` bounds the recursion (a modelling
artifact: the code itself imposes no retry cap). -/
def drive (s : Session) (ssoForm : Response → Url) (net : Nat → RespCore) :
    Nat → Nat → Request → DriveOut
  | 0, _, _ => ⟨.error .fuelOut, [], 0⟩
  | fuel + 1, i, req =>
    let req' := catch_forced_redirect req
    let r := mkResponse req'.url (net i)
    match applyChain s ssoForm r with
    | .error e => ⟨.error (.login e), [req'], 0⟩
    | .ok (r', d) =>
      if isRedirect r' then
        match r'.location with
        | some l =>
          let rest := drive s ssoForm net fuel (i + 1) ⟨.get, l, []⟩
          ⟨rest.result, req' :: rest.requests, d + rest.slept⟩
        | none => ⟨.ok r', [req'], d⟩
      else ⟨.ok r', [req'], d⟩

/-! ## The resource tree (`datatypes.py`)

### `Folder.childs`

`Folder.childs` fetches the folder's "next level" page through the session,
classifies each anchor of the page (three numeric identifiers in the href
⇒ child `Folder`; a single trailing numeric identifier ⇒ child `File`,
whose extension/size come from the sibling text; no match ⇒ skipped) and
caches the resulting name-keyed dict.  The regex dispatch on the href is
modelled by pre-classified anchors.  Python object identity is modelled by
an allocation counter: every constructed child carries a fresh `allocId`.
Network traffic is modelled by a request counter and an environment
mapping the request index to the anchors parsed from the response. -/

/-- The classification of an anchor's `href` by `folder_regex`
(`'(\d+)','(\d+)','(\d+)'`) and `file_regex` (`(\d+)$`). -/
inductive Href where
  | folderRef (inc nod doc : Nat)
  | fileRef (nod : Nat) (extension size : String)
  | other
deriving DecidableEq, Repr

/-- An anchor of the next-level page: its text (the child's name) and its
classified href. -/
structure Anchor where
  text : String
  href : Href
deriving DecidableEq, Repr

/-- The data of a constructed child node. -/
inductive ChildData where
  | folderC (inc nod doc : Nat)
  | fileC (nod : Nat) (extension size : String)
deriving DecidableEq, Repr

/-- A constructed child object; `allocId` models Python object identity. -/
structure ChildObj where
  allocId : Nat
  data : ChildData
deriving DecidableEq, Repr

/-- `self._childs[name] = element` on a Python dict: replace the value of an
existing key in place, otherwise append. -/
def dictInsert (k : String) (v : ChildObj) :
    List (String × ChildObj) → List (String × ChildObj)
  | [] => [(k, v)]
  | (k', v') :: rest =>
    if k' = k then (k, v) :: rest else (k', v') :: dictInsert k v rest

/-- The `for raw_element in page.find_all("a")` loop of `Folder.childs`:
construct a child per anchor (skipping anchors matching neither regex) and
insert it into the dict, threading the allocation counter. -/
def buildChilds (anchors : List Anchor) (alloc : Nat)
    (acc : List (String × ChildObj)) : List (String × ChildObj) × Nat :=
  match anchors with
  | [] => (acc, alloc)
  | an :: rest =>
    match an.href with
    | .folderRef inc nod doc =>
      buildChilds rest (alloc + 1)
        (dictInsert an.text ⟨alloc, .folderC inc nod doc⟩ acc)
    | .fileRef nod ext sz =>
      buildChilds rest (alloc + 1)
        (dictInsert an.text ⟨alloc, .fileC nod ext sz⟩ acc)
    | .other => buildChilds rest alloc acc

/-- The mutable state of a `Folder`: `_childs` is `None` until the first
fetch, afterwards the cached dict. -/
structure FolderSt where
  cache : Option (List (String × ChildObj))
deriving DecidableEq, Repr

/-- Python truthiness of `self._childs`: not `None` and nonempty. -/
def cacheTruthy (st : FolderSt) : Bool :=
  match st.cache with
  | none => false
  | some m => m ≠ []

/-- Result of one `Folder.childs` call: the returned mapping, the new
folder state, the updated request counter and the updated allocation
counter. -/
structure ChildsOut where
  map : List (String × ChildObj)
  st : FolderSt
  reqs : Nat
  alloc : Nat
deriving DecidableEq, Repr

/-- `Folder.childs(force_update)`: return the cached dict if it is truthy
and no forced update is requested; otherwise issue one request through the
session (`env reqs` is the parsed response of the `reqs`-th request),
rebuild the dict and replace the cache wholesale. -/
def childs (env : Nat → List Anchor) (st : FolderSt) (force_update : Bool)
    (reqs alloc : Nat) : ChildsOut :=
  if cacheTruthy st ∧ ¬ force_update then
    ⟨st.cache.getD [], st, reqs, alloc⟩
  else
    let m := (buildChilds (env reqs) alloc []).1
    ⟨m, ⟨some m⟩, reqs + 1, (buildChilds (env reqs) alloc []).2⟩

/-! ### `Folder.files`

`Folder.files` is an async generator over a folder's (cached) children:
it first yields the children that are `File`s, in dict order, then, if
`recursive`, recurses into the children that are `Folder`s, in dict order.
It is modelled over the materialized tree (each folder's children as
fetched by `childs`), the yielded sequence being a `List` — finite by
construction. -/

/-- A node of the materialized folder tree. -/
inductive MNode where
  | file (name : String)
  | dir (name : String) (children : List MNode)

/-- `isinstance(child, File)`. -/
def isFileN : MNode → Bool
  | .file _ => true
  | .dir _ _ => false

/-- `isinstance(child, Folder)`. -/
def isFolderN : MNode → Bool
  | .file _ => false
  | .dir _ _ => true

mutual

/-- `Folder.files(recursive)`: yield the folder's own `File` children
first, then (if `recursive`) each child folder's files, depth-first, in
dict order. -/
def files (recursive : Bool) : MNode → List MNode
  | .file _ => []
  | .dir _ cs => cs.filter isFileN ++ (if recursive then filesRec cs else [])

/-- The `for folder in filter(isinstance Folder, childs): yield from
folder.files(True)` loop. -/
def filesRec : List MNode → List MNode
  | [] => []
  | c :: cs => (if isFolderN c then files true c else []) ++ filesRec cs

end

/-! ## The downloader (`File.save`) and the resolved `File` attributes

`File.save` streams the download response; it resolves `_filename`,
`_size`, `_date` and `_etag` from the headers, sanitizes the caller's
generated filename, skips empty/whitespace names, skips unchanged local
files (yielding the sentinel `-1`), and otherwise streams into a `.tmp`
sibling which is then renamed into place.  The `Last-Modified` parse
(`strptime`) followed by `time.mktime(...timetuple())` is modelled by the
epoch seconds `mtime` directly. -/

/-- The server-confirmed attributes of a `File`, set together by `save`
(`_filename`, `_size`, `_date` as its mktime epoch, `_etag`). -/
structure Resolved where
  filename : String
  size : Nat
  mtime : Nat
  etag : String
deriving DecidableEq, Repr

/-- The attribute-access error of the `File` properties
(`ValueError("You must get info first.")`). -/
inductive AttrErr where
  | valueError (msg : String)
deriving DecidableEq, Repr

/-- The state of a `File` node: its resolved attributes are absent until
the first `save` (the `hasattr(self, "_filename")` checks). -/
structure FileSt where
  name : String
  resolved : Option Resolved
deriving DecidableEq, Repr

/-- `File.filename`: raise `ValueError` until the file has been fetched
once. -/
def FileSt.filename (f : FileSt) : Except AttrErr String :=
  match f.resolved with
  | none => .error (.valueError "You must get info first.")
  | some r => .ok r.filename

/-- `File.size`: raise `ValueError` until the file has been fetched once. -/
def FileSt.size (f : FileSt) : Except AttrErr Nat :=
  match f.resolved with
  | none => .error (.valueError "You must get info first.")
  | some r => .ok r.size

/-- `File.date` (as its mktime epoch): raise `ValueError` until the file
has been fetched once. -/
def FileSt.date (f : FileSt) : Except AttrErr Nat :=
  match f.resolved with
  | none => .error (.valueError "You must get info first.")
  | some r => .ok r.mtime

/-- `File.etag`: raise `ValueError` until the file has been fetched once. -/
def FileSt.etag (f : FileSt) : Except AttrErr String :=
  match f.resolved with
  | none => .error (.valueError "You must get info first.")
  | some r => .ok r.etag

/-- The headers of the streamed download response used by `File.save`. -/
structure RespHeaders where
  status : Nat
  contentDisposition : Option String
  contentLength : Nat
  lastModified : Nat
  etag : String
deriving DecidableEq, Repr

/-- All start positions at which `pat` occurs in `l`. -/
def occurrences (pat l : List Char) : List Nat :=
  (List.range l.length).filter (fun p => pat.isPrefixOf (l.drop p))

/-- `re.match(r'^.*filename="(.+)"$', s)`: the string must end in `"`;
with `.*` greedy and backtracking, the capture runs from just after the
last occurrence of `filename="` that leaves it nonempty, to just before
the final `"`.  `none` models the `AttributeError` crash on `.groups()`
when the match fails. -/
def extractFilename (s : String) : Option String :=
  let l := s.data
  if l.getLast? = some '"' then
    let t := l.dropLast
    let pat := "filename=\"".data
    match (occurrences pat t |>.filter (fun p => p + pat.length < t.length)
            ).getLast? with
    | some p => some ⟨t.drop (p + pat.length)⟩
    | none => none
  else none

/-- A local file on disk: its byte size and modification time. -/
structure LocalFile where
  size : Nat
  mtime : Nat
deriving DecidableEq, Repr

/-- The filesystem, as the candidate paths' states. -/
def Fs : Type := String → Option LocalFile

/-- The filesystem side effects `File.save` can perform, in order. -/
inductive FsEvent where
  | openW (path : String)
  | write (path : String) (bytes : Nat)
  | rename (src dst : String)
  | utime (path : String) (mtime : Nat)
deriving DecidableEq, Repr

/-- The errors `File.save` can raise: `FileNotFound` on 403, the
`raise_for_status` error on another non-2xx, and the `AttributeError`
crash when the `Content-Disposition` regex does not match. -/
inductive SaveErr where
  | fileNotFound
  | httpStatus (code : Nat)
  | attrError
deriving DecidableEq, Repr

/-- A completed `File.save` call: the resolved attributes it set, the values
yielded to the caller (byte counts per chunk, or the sentinel `-1`), and
the filesystem events it performed. -/
structure SaveOk where
  resolved : Resolved
  progress : List Int
  events : List FsEvent
deriving DecidableEq, Repr

/-- `File.save(path, filename_generator, overwrite)`.

* `fs` is the state of the destination directory, `chunks` the sizes of the
  chunks of `response.aiter_bytes()` (each `outfile.write(chunk)` returns
  and yields the chunk's size).
* 403 raises `FileNotFound`; any other non-2xx raises via
  `raise_for_status`.
* The resolved filename comes from the `Content-Disposition` header, with
  `f'filename="{name}"'` as the header's default.
* The generated filename is passed through `get_valid_filename`; an empty
  or whitespace result returns without yielding and without touching disk.
* If the candidate path exists with the server's size and mtime and
  `overwrite` is false, yield `-1` and return without touching disk.
* Otherwise stream into `f"{filepath}.tmp"`, rename it onto `filepath` and
  set the server's mtime. -/
def save (fs : Fs) (hdr : RespHeaders) (f : FileSt)
    (filename_generator : Resolved → String) (path : String)
    (overwrite : Bool) (chunks : List Nat) : Except SaveErr SaveOk :=
  if hdr.status = 403 then .error .fileNotFound
  else if ¬ (200 ≤ hdr.status ∧ hdr.status ≤ 299) then
    .error (.httpStatus hdr.status)
  else
    match extractFilename
        (hdr.contentDisposition.getD ("filename=\"" ++ f.name ++ "\"")) with
    | none => .error .attrError
    | some fn =>
      let resolved : Resolved :=
        ⟨fn, hdr.contentLength, hdr.lastModified, hdr.etag⟩
      let filename := get_valid_filename (filename_generator resolved)
      if filename = "" ∨ pyIsSpace filename then
        .ok ⟨resolved, [], []⟩
      else
        let filepath := path ++ "/" ++ filename
        let mtime := resolved.mtime
        match fs filepath with
        | some lf =>
          if ¬ overwrite ∧ lf.size = resolved.size ∧ lf.mtime = mtime then
            .ok ⟨resolved, [(-1 : Int)], []⟩
          else
            let tmpfilepath := filepath ++ ".tmp"
            .ok ⟨resolved, chunks.map (Int.ofNat),
              .openW tmpfilepath :: chunks.map (FsEvent.write tmpfilepath) ++
                [.rename tmpfilepath filepath, .utime filepath mtime]⟩
        | none =>
          let tmpfilepath := filepath ++ ".tmp"
          .ok ⟨resolved, chunks.map (Int.ofNat),
            .openW tmpfilepath :: chunks.map (FsEvent.write tmpfilepath) ++
              [.rename tmpfilepath filepath, .utime filepath mtime]⟩

/-- Apply one filesystem event to the filesystem. -/
def applyEvent (fs : Fs) : FsEvent → Fs
  | .openW p => fun q => if q = p then some ⟨0, 0⟩ else fs q
  | .write p n => fun q =>
    if q = p then
      match fs p with
      | some lf => some ⟨lf.size + n, lf.mtime⟩
      | none => some ⟨n, 0⟩
    else fs q
  | .rename src dst => fun q =>
    if q = src then none
    else if q = dst then fs src
    else fs q
  | .utime p t => fun q =>
    if q = p then
      match fs p with
      | some lf => some ⟨lf.size, t⟩
      | none => none
    else fs q

/-- Apply a list of filesystem events in order. -/
def applyEvents (fs : Fs) : List FsEvent → Fs
  | [] => fs
  | e :: es => applyEvents (applyEvent fs e) es

/-! ## Theorems about `get_valid_filename` -/

theorem getD_map_sanChar (l : List Char) :
    ∀ i : Nat, i < l.length →
      (l.map sanChar).getD i ' ' = sanChar (l.getD i ' ') := by
  induction l with
  | nil => intro i h; simp at h
  | cons c cs ih =>
    intro i h
    cases i with
    | zero => simp [List.getD]
    | succ n =>
      simp only [List.map, List.getD_cons_succ]
      exact ih n (by simpa using h)

theorem specAsciiAllowed_sub (c : Char)
    (h : specAsciiAllowed c = true) :
    c = '-' ∨ pySpace c ∨ pyWord c ∨ c = '.' := by
  simp only [specAsciiAllowed, Bool.decide_or, Bool.or_eq_true,
    decide_eq_true_eq] at h
  rcases h with h | h | h | h | h | h | h
  · exact .inr (.inr (.inl (by simp only [pyWord, Bool.decide_or,
      Bool.or_eq_true, decide_eq_true_eq]; tauto)))
  · exact .inr (.inr (.inl (by simp only [pyWord, Bool.decide_or,
      Bool.or_eq_true, decide_eq_true_eq]; tauto)))
  · exact .inr (.inr (.inl (by simp only [pyWord, Bool.decide_or,
      Bool.or_eq_true, decide_eq_true_eq]; tauto)))
  · exact .inr (.inr (.inl (by simp only [pyWord, Bool.decide_or,
      Bool.or_eq_true, decide_eq_true_eq]; tauto)))
  · exact .inr (.inr (.inr h))
  · exact .inr (.inl (by simpa using h))
  · exact .inl h

theorem sanChar_of_allowed (c : Char)
    (h : c = '-' ∨ pySpace c ∨ pyWord c ∨ c = '.') : sanChar c = c := by
  unfold sanChar
  rw [if_pos]
  rcases h with h | h | h | h <;> simp [h]

theorem sanChar_of_not_allowed (c : Char)
    (h : ¬ (c = '-' ∨ pySpace c ∨ pyWord c ∨ c = '.')) : sanChar c = '_' := by
  unfold sanChar
  rw [if_neg]
  intro hc
  apply h
  rcases hc with hc | hc | hc | hc
  · exact .inl hc
  · exact .inr (.inl (by simpa using hc))
  · exact .inr (.inr (.inl (by simpa using hc)))
  · exact .inr (.inr (.inr hc))

/-- **C7** (corrected), counterexample to the claim as stated: the character
`à` (U+00E0) lies outside the class `[A-Za-z0-9_.\s-]`, yet
`get_valid_filename` leaves it unchanged instead of replacing it with `_`
(Python's `\w` matches non-ASCII letters). -/
theorem c7_counterexample :
    specAsciiAllowed 'à' = false ∧ get_valid_filename "à" = "à" ∧
      ("à" : String) ≠ "_" := by
  decide

/-- **C7** (amended): `get_valid_filename` acts character-wise, preserving
length, and every character of the class `[A-Za-z0-9_.\s-]` is always left
unchanged.  For characters below U+0100 — the range on which `pyWord` and
`pySpace` model Python's `\w` and `\s` exactly — a character is left
unchanged exactly when it matches Python's `[-\s\w.]` (which also matches
the non-ASCII Latin-1 word characters, such as `à`), and every other
character is replaced by `_`. -/
theorem c7_sanitization (s : String) (i : Nat) (h : i < s.data.length)
    (_hrange : (s.data.getD i ' ').toNat < 0x100) :
    (get_valid_filename s).data.length = s.data.length ∧
    (specAsciiAllowed (s.data.getD i ' ') = true →
      (get_valid_filename s).data.getD i ' ' = s.data.getD i ' ') ∧
    ((s.data.getD i ' ' = '-' ∨ pySpace (s.data.getD i ' ') ∨
        pyWord (s.data.getD i ' ') ∨ s.data.getD i ' ' = '.') →
      (get_valid_filename s).data.getD i ' ' = s.data.getD i ' ') ∧
    (¬ (s.data.getD i ' ' = '-' ∨ pySpace (s.data.getD i ' ') ∨
        pyWord (s.data.getD i ' ') ∨ s.data.getD i ' ' = '.') →
      (get_valid_filename s).data.getD i ' ' = '_') := by
  have hdata : (get_valid_filename s).data = s.data.map sanChar := rfl
  have hget := getD_map_sanChar s.data i h
  refine ⟨by rw [hdata, List.length_map], ?_, ?_, ?_⟩
  · intro hspec
    rw [hdata, hget, sanChar_of_allowed _ (specAsciiAllowed_sub _ hspec)]
  · intro hall
    rw [hdata, hget, sanChar_of_allowed _ hall]
  · intro hnall
    rw [hdata, hget, sanChar_of_not_allowed _ hnall]

/-- **C7** witness: the amended statement evaluated on `"p/q"` at index 1
(`/` is below U+0100, outside the class, and becomes `_`). -/
theorem c7_sanitization_witness :
    (get_valid_filename "p/q").data.length = ("p/q" : String).data.length ∧
    (specAsciiAllowed (("p/q" : String).data.getD 1 ' ') = true →
      (get_valid_filename "p/q").data.getD 1 ' ' =
        ("p/q" : String).data.getD 1 ' ') ∧
    ((("p/q" : String).data.getD 1 ' ' = '-' ∨
        pySpace (("p/q" : String).data.getD 1 ' ') ∨
        pyWord (("p/q" : String).data.getD 1 ' ') ∨
        ("p/q" : String).data.getD 1 ' ' = '.') →
      (get_valid_filename "p/q").data.getD 1 ' ' =
        ("p/q" : String).data.getD 1 ' ') ∧
    (¬ (("p/q" : String).data.getD 1 ' ' = '-' ∨
        pySpace (("p/q" : String).data.getD 1 ' ') ∨
        pyWord (("p/q" : String).data.getD 1 ' ') ∨
        ("p/q" : String).data.getD 1 ' ' = '.') →
      (get_valid_filename "p/q").data.getD 1 ' ' = '_') :=
  c7_sanitization "p/q" 1 (by decide) (by decide)

theorem sanChar_idem (c : Char) : sanChar (sanChar c) = sanChar c := by
  by_cases h : c = '-' ∨ pySpace c ∨ pyWord c ∨ c = '.'
  · rw [sanChar_of_allowed _ h, sanChar_of_allowed _ h]
  · rw [sanChar_of_not_allowed _ h]
    refine sanChar_of_allowed _ (.inr (.inr (.inl ?_)))
    decide

/-- **C8** (confirmed): `get_valid_filename` is idempotent — sanitizing
twice equals sanitizing once, since every character it outputs (an allowed
character or `_`, itself a word character) is left fixed by a second
pass. -/
theorem c8_idempotent (s : String) :
    get_valid_filename (get_valid_filename s) = get_valid_filename s := by
  show String.mk ((s.data.map sanChar).map sanChar) = String.mk _
  rw [List.map_map]
  congr 1
  exact List.map_congr_left (fun c _ => sanChar_idem c)

/-! ## Theorems about the resource tree -/

theorem filesRec_eq_bind (cs : List MNode) :
    filesRec cs = (cs.filter isFolderN).flatMap (files true) := by
  induction cs with
  | nil => simp [filesRec]
  | cons c cs ih =>
    rw [filesRec, List.filter_cons]
    cases hc : isFolderN c with
    | true => simp [hc, ih]
    | false => simp [hc, ih]

/-- **C4** (confirmed): `Folder.files(recursive=True)` yields the folder's
own `File` children first, then, for each child folder in mapping order,
that subfolder's files depth-first; without `recursive` only the folder's
own files.  Over `root{ a.txt, sub{ b.txt } }` it yields `a.txt` before
`b.txt`, and the sequence is a finite list. -/
theorem c4_files_order :
    (∀ (n : String) (cs : List MNode),
      files true (.dir n cs) =
        cs.filter isFileN ++ (cs.filter isFolderN).flatMap (files true)) ∧
    (∀ (n : String) (cs : List MNode),
      files false (.dir n cs) = cs.filter isFileN) ∧
    files true (.dir "root" [.file "a.txt", .dir "sub" [.file "b.txt"]]) =
      [.file "a.txt", .file "b.txt"] := by
  refine ⟨fun n cs => ?_, fun n cs => ?_, ?_⟩
  · rw [files, if_pos rfl, filesRec_eq_bind]
  · rw [files, if_neg (by simp)]
    simp
  · rw [files]
    simp [filesRec, files, isFileN, isFolderN]

/-- **C9** (confirmed): precondition violations fail deterministically with
a named error — the `File` properties `filename`, `size`, `date`, `etag`
raise `ValueError("You must get info first.")` before the file has been
fetched once, and the session accessors `username`, `password` raise
`LoginError("You must login first.")` before `signin` was ever called. -/
theorem c9_precondition_errors (f : FileSt) (s : Session)
    (hf : f.resolved = none) (hs : s.creds = none) :
    f.filename = .error (.valueError "You must get info first.") ∧
    f.size = .error (.valueError "You must get info first.") ∧
    f.date = .error (.valueError "You must get info first.") ∧
    f.etag = .error (.valueError "You must get info first.") ∧
    s.username = .error (.login "You must login first.") ∧
    s.password = .error (.login "You must login first.") := by
  simp [FileSt.filename, FileSt.size, FileSt.date, FileSt.etag,
    Session.username, Session.password, hf, hs]

/-- **C9** witness: a freshly constructed file node and a session with no
`signin` call. -/
theorem c9_precondition_errors_witness :
    FileSt.filename ⟨"lesson.pdf", none⟩ =
      .error (.valueError "You must get info first.") ∧
    FileSt.size ⟨"lesson.pdf", none⟩ =
      .error (.valueError "You must get info first.") ∧
    FileSt.date ⟨"lesson.pdf", none⟩ =
      .error (.valueError "You must get info first.") ∧
    FileSt.etag ⟨"lesson.pdf", none⟩ =
      .error (.valueError "You must get info first.") ∧
    Session.username ⟨none⟩ = .error (.login "You must login first.") ∧
    Session.password ⟨none⟩ = .error (.login "You must login first.") :=
  c9_precondition_errors ⟨"lesson.pdf", none⟩ ⟨none⟩ rfl rfl

/-! ### Allocation bounds of `buildChilds` -/

theorem dictInsert_mem {k : String} {v : ChildObj}
    {l : List (String × ChildObj)} {x : String × ChildObj}
    (h : x ∈ dictInsert k v l) : x = (k, v) ∨ x ∈ l := by
  induction l with
  | nil => simpa [dictInsert] using h
  | cons p rest ih =>
    rw [dictInsert] at h
    by_cases hk : p.1 = k
    · rw [if_pos hk] at h
      rcases List.mem_cons.mp h with h | h
      · exact .inl h
      · exact .inr (List.mem_cons_of_mem _ h)
    · rw [if_neg hk] at h
      rcases List.mem_cons.mp h with h | h
      · exact .inr (h ▸ List.mem_cons_self _ _)
      · rcases ih h with h | h
        · exact .inl h
        · exact .inr (List.mem_cons_of_mem _ h)

theorem buildChilds_alloc_le (anchors : List Anchor) :
    ∀ (a : Nat) (acc : List (String × ChildObj)),
      a ≤ (buildChilds anchors a acc).2 := by
  induction anchors with
  | nil => intro a acc; simp [buildChilds]
  | cons an rest ih =>
    intro a acc
    rw [buildChilds]
    cases an.href with
    | folderRef inc nod doc => exact le_trans (Nat.le_succ a) (ih _ _)
    | fileRef nod ext sz => exact le_trans (Nat.le_succ a) (ih _ _)
    | other => exact ih _ _

theorem buildChilds_ids (anchors : List Anchor) :
    ∀ (a : Nat) (acc : List (String × ChildObj)) (x : String × ChildObj),
      x ∈ (buildChilds anchors a acc).1 →
      x ∈ acc ∨ (a ≤ x.2.allocId ∧ x.2.allocId < (buildChilds anchors a acc).2) := by
  induction anchors with
  | nil => intro a acc x hx; exact .inl hx
  | cons an rest ih =>
    intro a acc x hx
    rcases han : an.href with ⟨inc, nod, doc⟩ | ⟨nod, ext, sz⟩ | _
    · simp only [buildChilds, han] at hx ⊢
      rcases ih _ _ _ hx with h | h
      · rcases dictInsert_mem h with h | h
        · refine .inr ⟨by simp [h], ?_⟩
          have := buildChilds_alloc_le rest (a + 1)
            (dictInsert an.text ⟨a, .folderC inc nod doc⟩ acc)
          simp [h]
          omega
        · exact .inl h
      · exact .inr ⟨le_trans (Nat.le_succ a) h.1, h.2⟩
    · simp only [buildChilds, han] at hx ⊢
      rcases ih _ _ _ hx with h | h
      · rcases dictInsert_mem h with h | h
        · refine .inr ⟨by simp [h], ?_⟩
          have := buildChilds_alloc_le rest (a + 1)
            (dictInsert an.text ⟨a, .fileC nod ext sz⟩ acc)
          simp [h]
          omega
        · exact .inl h
      · exact .inr ⟨le_trans (Nat.le_succ a) h.1, h.2⟩
    · simp only [buildChilds, han] at hx ⊢
      exact ih _ _ _ hx

theorem buildChilds_ids_nil {anchors : List Anchor} {a : Nat}
    {x : String × ChildObj} (hx : x ∈ (buildChilds anchors a []).1) :
    a ≤ x.2.allocId ∧ x.2.allocId < (buildChilds anchors a []).2 := by
  rcases buildChilds_ids anchors a [] x hx with h | h
  · simp at h
  · exact h

/-- **C2** (corrected), counterexample to the claim as stated: a folder
whose listing parses to no children caches an empty dict, which is falsy,
so a second `childs()` call without `force_update` issues a second network
request (the request counter reaches 2, not 1). -/
theorem c2_counterexample :
    (childs (fun _ => []) (childs (fun _ => []) ⟨none⟩ false 0 0).st false
        (childs (fun _ => []) ⟨none⟩ false 0 0).reqs
        (childs (fun _ => []) ⟨none⟩ false 0 0).alloc).reqs = 2 ∧
      (2 : Nat) ≠ 1 := by
  exact ⟨rfl, by decide⟩

/-- **C2** (amended): provided the first fetch produced a nonempty mapping,
a second `childs()` call without `force_update` issues no further request
and returns the cached mapping unchanged (an empty mapping is not cached:
it triggers a refetch); a call with `force_update=True` issues exactly one
further request, fully replaces the cache, and every child object of the
new mapping is distinct (by object identity) from every child object of
the old mapping, even when names coincide. -/
theorem c2_cache_and_replace (env : Nat → List Anchor) (a0 : Nat)
    (h : (childs env ⟨none⟩ false 0 a0).map ≠ []) :
    (childs env (childs env ⟨none⟩ false 0 a0).st false
        (childs env ⟨none⟩ false 0 a0).reqs
        (childs env ⟨none⟩ false 0 a0).alloc =
      childs env ⟨none⟩ false 0 a0) ∧
    (childs env ⟨none⟩ false 0 a0).reqs = 1 ∧
    ((childs env (childs env ⟨none⟩ false 0 a0).st true
        (childs env ⟨none⟩ false 0 a0).reqs
        (childs env ⟨none⟩ false 0 a0).alloc).reqs =
      (childs env ⟨none⟩ false 0 a0).reqs + 1) ∧
    ((childs env (childs env ⟨none⟩ false 0 a0).st true
        (childs env ⟨none⟩ false 0 a0).reqs
        (childs env ⟨none⟩ false 0 a0).alloc).st.cache =
      some (childs env (childs env ⟨none⟩ false 0 a0).st true
        (childs env ⟨none⟩ false 0 a0).reqs
        (childs env ⟨none⟩ false 0 a0).alloc).map) ∧
    (∀ x ∈ (childs env (childs env ⟨none⟩ false 0 a0).st true
        (childs env ⟨none⟩ false 0 a0).reqs
        (childs env ⟨none⟩ false 0 a0).alloc).map,
      ∀ y ∈ (childs env ⟨none⟩ false 0 a0).map,
        x.2.allocId ≠ y.2.allocId) := by
  have h0 : childs env ⟨none⟩ false 0 a0 =
      ⟨(buildChilds (env 0) a0 []).1, ⟨some (buildChilds (env 0) a0 []).1⟩,
        1, (buildChilds (env 0) a0 []).2⟩ := by
    rw [childs]
    rw [if_neg (by simp [cacheTruthy])]
  have hm : (childs env ⟨none⟩ false 0 a0).map = (buildChilds (env 0) a0 []).1 := by
    rw [h0]
  have hne : (buildChilds (env 0) a0 []).1 ≠ [] := by rw [← hm]; exact h
  have h2 : childs env (childs env ⟨none⟩ false 0 a0).st false
      (childs env ⟨none⟩ false 0 a0).reqs
      (childs env ⟨none⟩ false 0 a0).alloc = childs env ⟨none⟩ false 0 a0 := by
    rw [h0]
    rw [childs, if_pos (by simp [cacheTruthy, hne])]
    simp
  have h3 : childs env (childs env ⟨none⟩ false 0 a0).st true
      (childs env ⟨none⟩ false 0 a0).reqs
      (childs env ⟨none⟩ false 0 a0).alloc =
      ⟨(buildChilds (env 1) (buildChilds (env 0) a0 []).2 []).1,
        ⟨some (buildChilds (env 1) (buildChilds (env 0) a0 []).2 []).1⟩,
        2, (buildChilds (env 1) (buildChilds (env 0) a0 []).2 []).2⟩ := by
    rw [h0]
    rw [childs, if_neg (by simp)]
  refine ⟨h2, by rw [h0], by rw [h3, h0], by rw [h3], ?_⟩
  intro x hx y hy
  rw [h3] at hx
  rw [h0] at hy
  simp only at hx hy
  have hxb := buildChilds_ids_nil hx
  have hyb := buildChilds_ids_nil hy
  omega

/-- **C2** witness: a folder listing with one file anchor named `"a"`; the
same name recurs on the forced refetch, yet the objects differ. -/
theorem c2_cache_and_replace_witness :
    (childs (fun _ => [⟨"a", .fileRef 5 "pdf" "1 MB"⟩]) ⟨none⟩ false 0 0).map
        ≠ [] ∧
    (childs (fun _ => [⟨"a", .fileRef 5 "pdf" "1 MB"⟩])
        (childs (fun _ => [⟨"a", .fileRef 5 "pdf" "1 MB"⟩]) ⟨none⟩ false 0 0).st
        false
        (childs (fun _ => [⟨"a", .fileRef 5 "pdf" "1 MB"⟩]) ⟨none⟩ false 0 0).reqs
        (childs (fun _ => [⟨"a", .fileRef 5 "pdf" "1 MB"⟩]) ⟨none⟩ false 0 0).alloc =
      childs (fun _ => [⟨"a", .fileRef 5 "pdf" "1 MB"⟩]) ⟨none⟩ false 0 0) ∧
    (∀ x ∈ (childs (fun _ => [⟨"a", .fileRef 5 "pdf" "1 MB"⟩])
        (childs (fun _ => [⟨"a", .fileRef 5 "pdf" "1 MB"⟩]) ⟨none⟩ false 0 0).st
        true
        (childs (fun _ => [⟨"a", .fileRef 5 "pdf" "1 MB"⟩]) ⟨none⟩ false 0 0).reqs
        (childs (fun _ => [⟨"a", .fileRef 5 "pdf" "1 MB"⟩]) ⟨none⟩ false 0 0).alloc).map,
      ∀ y ∈ (childs (fun _ => [⟨"a", .fileRef 5 "pdf" "1 MB"⟩]) ⟨none⟩ false 0 0).map,
        x.2.allocId ≠ y.2.allocId) := by
  refine ⟨by decide, ?_, ?_⟩
  · exact (c2_cache_and_replace (fun _ => [⟨"a", .fileRef 5 "pdf" "1 MB"⟩]) 0
      (by decide)).1
  · exact (c2_cache_and_replace (fun _ => [⟨"a", .fileRef 5 "pdf" "1 MB"⟩]) 0
      (by decide)).2.2.2.2

/-! ## Theorems about `File.save` -/

theorem save_eq_tail (fs : Fs) (hdr : RespHeaders) (f : FileSt)
    (filename_generator : Resolved → String) (path : String)
    (overwrite : Bool) (chunks : List Nat) (fn : String)
    (hst : 200 ≤ hdr.status ∧ hdr.status ≤ 299)
    (hex : extractFilename
      (hdr.contentDisposition.getD ("filename=\"" ++ f.name ++ "\"")) =
        some fn) :
    save fs hdr f filename_generator path overwrite chunks =
      (let resolved : Resolved :=
        ⟨fn, hdr.contentLength, hdr.lastModified, hdr.etag⟩
       let filename := get_valid_filename (filename_generator resolved)
       if filename = "" ∨ pyIsSpace filename then
         .ok ⟨resolved, [], []⟩
       else
         let filepath := path ++ "/" ++ filename
         match fs filepath with
         | some lf =>
           if ¬ overwrite ∧ lf.size = resolved.size ∧
               lf.mtime = resolved.mtime then
             .ok ⟨resolved, [(-1 : Int)], []⟩
           else
             .ok ⟨resolved, chunks.map (Int.ofNat),
               .openW (filepath ++ ".tmp") ::
                 chunks.map (FsEvent.write (filepath ++ ".tmp")) ++
                 [.rename (filepath ++ ".tmp") filepath,
                  .utime filepath resolved.mtime]⟩
         | none =>
           .ok ⟨resolved, chunks.map (Int.ofNat),
             .openW (filepath ++ ".tmp") ::
               chunks.map (FsEvent.write (filepath ++ ".tmp")) ++
               [.rename (filepath ++ ".tmp") filepath,
                .utime filepath resolved.mtime]⟩) := by
  unfold save
  rw [if_neg (by omega), if_neg (not_not_intro hst), hex]

/-- **C5** (confirmed): when the candidate local file exists with exactly
the server-reported size and modification time and `overwrite` is false,
`save` yields only the sentinel `-1`, performs no filesystem event (zero
bytes written, local file untouched); when either the size or the
modification time differs, the full download is streamed into the sibling
`<filepath>.tmp` and then renamed onto the final path in a single rename
event. -/
theorem c5_skip_if_unchanged (fs : Fs) (hdr : RespHeaders) (f : FileSt)
    (filename_generator : Resolved → String) (path : String)
    (chunks : List Nat) (fn : String) (lf : LocalFile)
    (hst : 200 ≤ hdr.status ∧ hdr.status ≤ 299)
    (hex : extractFilename
      (hdr.contentDisposition.getD ("filename=\"" ++ f.name ++ "\"")) =
        some fn)
    (hfn : ¬ (get_valid_filename (filename_generator
        ⟨fn, hdr.contentLength, hdr.lastModified, hdr.etag⟩) = "" ∨
      pyIsSpace (get_valid_filename (filename_generator
        ⟨fn, hdr.contentLength, hdr.lastModified, hdr.etag⟩))))
    (hloc : fs (path ++ "/" ++ get_valid_filename (filename_generator
        ⟨fn, hdr.contentLength, hdr.lastModified, hdr.etag⟩)) = some lf) :
    (lf.size = hdr.contentLength ∧ lf.mtime = hdr.lastModified →
      save fs hdr f filename_generator path false chunks =
        .ok ⟨⟨fn, hdr.contentLength, hdr.lastModified, hdr.etag⟩,
          [(-1 : Int)], []⟩ ∧
      applyEvents fs [] = fs) ∧
    (lf.size ≠ hdr.contentLength ∨ lf.mtime ≠ hdr.lastModified →
      save fs hdr f filename_generator path false chunks =
        .ok ⟨⟨fn, hdr.contentLength, hdr.lastModified, hdr.etag⟩,
          chunks.map (Int.ofNat),
          .openW (path ++ "/" ++ get_valid_filename (filename_generator
              ⟨fn, hdr.contentLength, hdr.lastModified, hdr.etag⟩) ++ ".tmp") ::
            chunks.map (FsEvent.write (path ++ "/" ++
              get_valid_filename (filename_generator
                ⟨fn, hdr.contentLength, hdr.lastModified, hdr.etag⟩) ++ ".tmp")) ++
            [.rename (path ++ "/" ++ get_valid_filename (filename_generator
                ⟨fn, hdr.contentLength, hdr.lastModified, hdr.etag⟩) ++ ".tmp")
              (path ++ "/" ++ get_valid_filename (filename_generator
                ⟨fn, hdr.contentLength, hdr.lastModified, hdr.etag⟩)),
             .utime (path ++ "/" ++ get_valid_filename (filename_generator
                ⟨fn, hdr.contentLength, hdr.lastModified, hdr.etag⟩))
              hdr.lastModified]⟩) := by
  have htail := save_eq_tail fs hdr f filename_generator path false chunks fn
    hst hex
  constructor
  · intro hsame
    refine ⟨?_, rfl⟩
    rw [htail]
    simp only [if_neg hfn, hloc]
    rw [if_pos ⟨by simp, hsame.1, hsame.2⟩]
  · intro hdiff
    rw [htail]
    simp only [if_neg hfn, hloc]
    rw [if_neg (by
      rintro ⟨-, h1, h2⟩
      rcases hdiff with h | h
      · exact h h1
      · exact h h2)]

/-- **C5** witness: a local file matching size 7 / mtime 1000 is skipped
with the `-1` sentinel; a local file of size 8 triggers the full
stream-and-rename. -/
theorem c5_skip_if_unchanged_witness :
    (save (fun _ => some ⟨7, 1000⟩) ⟨200, none, 7, 1000, "W"⟩ ⟨"x", none⟩
        (fun r => r.filename) "dl" false [3, 4] =
      .ok ⟨⟨"x", 7, 1000, "W"⟩, [(-1 : Int)], []⟩) ∧
    (save (fun _ => some ⟨8, 1000⟩) ⟨200, none, 7, 1000, "W"⟩ ⟨"x", none⟩
        (fun r => r.filename) "dl" false [3, 4] =
      .ok ⟨⟨"x", 7, 1000, "W"⟩, [(3 : Int), 4],
        [.openW "dl/x.tmp", .write "dl/x.tmp" 3, .write "dl/x.tmp" 4,
         .rename "dl/x.tmp" "dl/x", .utime "dl/x" 1000]⟩) := by
  constructor
  · exact ((c5_skip_if_unchanged (fun _ => some ⟨7, 1000⟩)
      ⟨200, none, 7, 1000, "W"⟩ ⟨"x", none⟩ (fun r => r.filename) "dl"
      [3, 4] "x" ⟨7, 1000⟩ (by decide) (by decide) (by decide)
      (by decide)).1 (by decide)).1
  · exact (c5_skip_if_unchanged (fun _ => some ⟨8, 1000⟩)
      ⟨200, none, 7, 1000, "W"⟩ ⟨"x", none⟩ (fun r => r.filename) "dl"
      [3, 4] "x" ⟨8, 1000⟩ (by decide) (by decide) (by decide)
      (by decide)).2 (by decide)

/-- **C6** (corrected), counterexample to the claim as stated: when the
filename generator yields the whitespace-only string `" "`, `save` returns
with an *empty* progress sequence — the caller observes no sentinel element
at all (the `-1` sentinel is reserved for the "unchanged" case); no bytes
are written and no file is created. -/
theorem c6_counterexample :
    save (fun _ => none) ⟨200, none, 7, 1000, "W"⟩ ⟨"x", none⟩
        (fun _ => " ") "dl" false [3, 4] =
      .ok ⟨⟨"x", 7, 1000, "W"⟩, [], []⟩ := by
  rfl

/-- **C6** (amended): whenever the sanitized generator output is empty or
whitespace-only, `save` skips the download: it yields nothing (the progress
sequence is empty — the skip is observable only as the generator
terminating without any yield) and performs no filesystem event. -/
theorem c6_skip_empty_filename (fs : Fs) (hdr : RespHeaders) (f : FileSt)
    (filename_generator : Resolved → String) (path : String)
    (overwrite : Bool) (chunks : List Nat) (fn : String)
    (hst : 200 ≤ hdr.status ∧ hdr.status ≤ 299)
    (hex : extractFilename
      (hdr.contentDisposition.getD ("filename=\"" ++ f.name ++ "\"")) =
        some fn)
    (hskip : get_valid_filename (filename_generator
        ⟨fn, hdr.contentLength, hdr.lastModified, hdr.etag⟩) = "" ∨
      pyIsSpace (get_valid_filename (filename_generator
        ⟨fn, hdr.contentLength, hdr.lastModified, hdr.etag⟩))) :
    save fs hdr f filename_generator path overwrite chunks =
      .ok ⟨⟨fn, hdr.contentLength, hdr.lastModified, hdr.etag⟩, [], []⟩ := by
  rw [save_eq_tail fs hdr f filename_generator path overwrite chunks fn
    hst hex]
  simp only [if_pos hskip]

/-- **C6** witness: the whitespace generator output on a concrete response,
via the amended theorem. -/
theorem c6_skip_empty_filename_witness :
    save (fun _ => none) ⟨200, none, 7, 1000, "W"⟩ ⟨"x", none⟩
        (fun _ => "\t ") "dl" true [5] =
      .ok ⟨⟨"x", 7, 1000, "W"⟩, [], []⟩ :=
  c6_skip_empty_filename (fun _ => none) ⟨200, none, 7, 1000, "W"⟩
    ⟨"x", none⟩ (fun _ => "\t ") "dl" true [5] "x" (by decide) (by decide)
    (by decide)

/-- **C10** (confirmed): the generator's output is passed through
`get_valid_filename` before use — the empty/whitespace skip check applies
to the sanitized string, and when a download happens every on-disk path is
built from the sanitized string (not the raw generator output). -/
theorem c10_sanitized_filename (fs : Fs) (hdr : RespHeaders) (f : FileSt)
    (filename_generator : Resolved → String) (path : String)
    (overwrite : Bool) (chunks : List Nat) (fn : String)
    (hst : 200 ≤ hdr.status ∧ hdr.status ≤ 299)
    (hex : extractFilename
      (hdr.contentDisposition.getD ("filename=\"" ++ f.name ++ "\"")) =
        some fn) :
    (save fs hdr f filename_generator path overwrite chunks =
        .ok ⟨⟨fn, hdr.contentLength, hdr.lastModified, hdr.etag⟩, [], []⟩ ↔
      (get_valid_filename (filename_generator
          ⟨fn, hdr.contentLength, hdr.lastModified, hdr.etag⟩) = "" ∨
        pyIsSpace (get_valid_filename (filename_generator
          ⟨fn, hdr.contentLength, hdr.lastModified, hdr.etag⟩)))) ∧
    (¬ (get_valid_filename (filename_generator
          ⟨fn, hdr.contentLength, hdr.lastModified, hdr.etag⟩) = "" ∨
        pyIsSpace (get_valid_filename (filename_generator
          ⟨fn, hdr.contentLength, hdr.lastModified, hdr.etag⟩))) →
      save fs hdr f filename_generator path overwrite chunks =
        .ok ⟨⟨fn, hdr.contentLength, hdr.lastModified, hdr.etag⟩,
          [(-1 : Int)], []⟩ ∨
      save fs hdr f filename_generator path overwrite chunks =
        .ok ⟨⟨fn, hdr.contentLength, hdr.lastModified, hdr.etag⟩,
          chunks.map (Int.ofNat),
          .openW (path ++ "/" ++ get_valid_filename (filename_generator
              ⟨fn, hdr.contentLength, hdr.lastModified, hdr.etag⟩) ++ ".tmp") ::
            chunks.map (FsEvent.write (path ++ "/" ++
              get_valid_filename (filename_generator
                ⟨fn, hdr.contentLength, hdr.lastModified, hdr.etag⟩) ++ ".tmp")) ++
            [.rename (path ++ "/" ++ get_valid_filename (filename_generator
                ⟨fn, hdr.contentLength, hdr.lastModified, hdr.etag⟩) ++ ".tmp")
              (path ++ "/" ++ get_valid_filename (filename_generator
                ⟨fn, hdr.contentLength, hdr.lastModified, hdr.etag⟩)),
             .utime (path ++ "/" ++ get_valid_filename (filename_generator
                ⟨fn, hdr.contentLength, hdr.lastModified, hdr.etag⟩))
              hdr.lastModified]⟩) := by
  have htail := save_eq_tail fs hdr f filename_generator path overwrite
    chunks fn hst hex
  by_cases hskip : get_valid_filename (filename_generator
      ⟨fn, hdr.contentLength, hdr.lastModified, hdr.etag⟩) = "" ∨
    pyIsSpace (get_valid_filename (filename_generator
      ⟨fn, hdr.contentLength, hdr.lastModified, hdr.etag⟩))
  · refine ⟨⟨fun _ => hskip, fun _ => ?_⟩, fun hn => absurd hskip hn⟩
    rw [htail]
    simp only [if_pos hskip]
  · rcases hfs : fs (path ++ "/" ++ get_valid_filename (filename_generator
        ⟨fn, hdr.contentLength, hdr.lastModified, hdr.etag⟩)) with - | lf
    · have hval : save fs hdr f filename_generator path overwrite chunks =
          .ok ⟨⟨fn, hdr.contentLength, hdr.lastModified, hdr.etag⟩,
            chunks.map (Int.ofNat),
            .openW (path ++ "/" ++ get_valid_filename (filename_generator
                ⟨fn, hdr.contentLength, hdr.lastModified, hdr.etag⟩) ++ ".tmp") ::
              chunks.map (FsEvent.write (path ++ "/" ++
                get_valid_filename (filename_generator
                  ⟨fn, hdr.contentLength, hdr.lastModified, hdr.etag⟩) ++ ".tmp")) ++
              [.rename (path ++ "/" ++ get_valid_filename (filename_generator
                  ⟨fn, hdr.contentLength, hdr.lastModified, hdr.etag⟩) ++ ".tmp")
                (path ++ "/" ++ get_valid_filename (filename_generator
                  ⟨fn, hdr.contentLength, hdr.lastModified, hdr.etag⟩)),
               .utime (path ++ "/" ++ get_valid_filename (filename_generator
                  ⟨fn, hdr.contentLength, hdr.lastModified, hdr.etag⟩))
                hdr.lastModified]⟩ := by
        rw [htail]
        simp only [if_neg hskip, hfs]
      refine ⟨⟨fun heq => ?_, fun h => absurd h hskip⟩, fun _ => .inr hval⟩
      rw [hval] at heq
      simp only [Except.ok.injEq, SaveOk.mk.injEq] at heq
      exact (List.cons_ne_nil _ _ heq.2.2).elim
    · by_cases hc : ¬ overwrite = true ∧ lf.size = hdr.contentLength ∧
        lf.mtime = hdr.lastModified
      · have hval : save fs hdr f filename_generator path overwrite chunks =
            .ok ⟨⟨fn, hdr.contentLength, hdr.lastModified, hdr.etag⟩,
              [(-1 : Int)], []⟩ := by
          rw [htail]
          simp only [if_neg hskip, hfs]
          rw [if_pos hc]
        refine ⟨⟨fun heq => ?_, fun h => absurd h hskip⟩, fun _ => .inl hval⟩
        rw [hval] at heq
        simp only [Except.ok.injEq, SaveOk.mk.injEq] at heq
        exact (List.cons_ne_nil _ _ heq.2.1).elim
      · have hval : save fs hdr f filename_generator path overwrite chunks =
            .ok ⟨⟨fn, hdr.contentLength, hdr.lastModified, hdr.etag⟩,
              chunks.map (Int.ofNat),
              .openW (path ++ "/" ++ get_valid_filename (filename_generator
                  ⟨fn, hdr.contentLength, hdr.lastModified, hdr.etag⟩) ++ ".tmp") ::
                chunks.map (FsEvent.write (path ++ "/" ++
                  get_valid_filename (filename_generator
                    ⟨fn, hdr.contentLength, hdr.lastModified, hdr.etag⟩) ++ ".tmp")) ++
                [.rename (path ++ "/" ++ get_valid_filename (filename_generator
                    ⟨fn, hdr.contentLength, hdr.lastModified, hdr.etag⟩) ++ ".tmp")
                  (path ++ "/" ++ get_valid_filename (filename_generator
                    ⟨fn, hdr.contentLength, hdr.lastModified, hdr.etag⟩)),
                 .utime (path ++ "/" ++ get_valid_filename (filename_generator
                    ⟨fn, hdr.contentLength, hdr.lastModified, hdr.etag⟩))
                  hdr.lastModified]⟩ := by
          rw [htail]
          simp only [if_neg hskip, hfs]
          rw [if_neg hc]
        refine ⟨⟨fun heq => ?_, fun h => absurd h hskip⟩, fun _ => .inr hval⟩
        rw [hval] at heq
        simp only [Except.ok.injEq, SaveOk.mk.injEq] at heq
        exact (List.cons_ne_nil _ _ heq.2.2).elim

/-- **C10** witness: a generator returning the raw string `"a/b"`; the
skip check sees the sanitized `"a_b"` (nonempty, not whitespace) and the
on-disk paths are `dl/a_b.tmp` / `dl/a_b`. -/
theorem c10_sanitized_filename_witness :
    (save (fun _ => none) ⟨200, none, 7, 1000, "W"⟩ ⟨"x", none⟩
        (fun _ => "a/b") "dl" false [3] =
        .ok ⟨⟨"x", 7, 1000, "W"⟩, [], []⟩ ↔
      (get_valid_filename "a/b" = "" ∨ pyIsSpace (get_valid_filename "a/b"))) ∧
    (save (fun _ => none) ⟨200, none, 7, 1000, "W"⟩ ⟨"x", none⟩
        (fun _ => "a/b") "dl" false [3] =
        .ok ⟨⟨"x", 7, 1000, "W"⟩, [(-1 : Int)], []⟩ ∨
      save (fun _ => none) ⟨200, none, 7, 1000, "W"⟩ ⟨"x", none⟩
        (fun _ => "a/b") "dl" false [3] =
        .ok ⟨⟨"x", 7, 1000, "W"⟩, [(3 : Int)],
          [.openW ("dl/" ++ get_valid_filename "a/b" ++ ".tmp"),
           .write ("dl/" ++ get_valid_filename "a/b" ++ ".tmp") 3,
           .rename ("dl/" ++ get_valid_filename "a/b" ++ ".tmp")
             ("dl/" ++ get_valid_filename "a/b"),
           .utime ("dl/" ++ get_valid_filename "a/b") 1000]⟩) := by
  have h := c10_sanitized_filename (fun _ => none) ⟨200, none, 7, 1000, "W"⟩
    ⟨"x", none⟩ (fun _ => "a/b") "dl" false [3] "x" (by decide) (by decide)
  exact ⟨h.1, h.2 (by decide)⟩

/-! ## Theorems about the authenticating session

Helper functions computing the effect of the login hooks once the session's
credentials are known, and structural lemmas about the hook chain. -/

/-- The effect of `_handle_login_request` for a session whose credentials
are `(u, p)`. -/
def loginRun (u p : String) (r : Response) : Response :=
  if r.url = urls.loginpage then
    redirect_to r
      { urls.login with params := [("j_username", u), ("j_password", p)] }
  else r

/-- The effect of `_handle_exipiring_password` for a session whose
credentials are `(u, p)`. -/
def expRun (u p : String) (r : Response) : Response :=
  if r.url.path = "/Chpass/chpassservlet/main.htm" then
    redirect_to r
      { urls.login with
        params := [("j_username", u), ("j_password", p), ("p_username", u),
                   ("p_locale", "it"), ("j_bypassScad", "S")] }
  else r

/-- The response produced by the pre-`_check_auth` hooks for a session
whose credentials are `(u, p)`. -/
def preRun (u p : String) (ssoForm : Response → Url) (r : Response) :
    Response :=
  handle_sso_request ssoForm (expRun u p (loginRun u p (handle_throttling r).1))

theorem redirect_to_url (r : Response) (t : Url) :
    (redirect_to r t).url = r.url := rfl

theorem isRedirect_redirect_to (r : Response) (t : Url) :
    isRedirect (redirect_to r t) = true := by
  simp [isRedirect, redirect_to]

theorem lbind_ok {α β : Type} (a : α) (f : α → Except LoginErr β) :
    ((Except.ok a : Except LoginErr α) >>= f) = f a := rfl

theorem lbind_err {α β : Type} (e : LoginErr) (f : α → Except LoginErr β) :
    ((Except.error e : Except LoginErr α) >>= f) = Except.error e := rfl

theorem handle_login_request_eq {s : Session} {u p : String}
    (hc : s.creds = some (u, p)) (r : Response) :
    handle_login_request s r = .ok (loginRun u p r) := by
  have hu : s.username = Except.ok u := by simp [Session.username, hc]
  have hp : s.password = Except.ok p := by simp [Session.password, hc]
  unfold handle_login_request loginRun
  by_cases h : r.url = urls.loginpage
  · rw [if_pos h, if_pos h, hu]
    simp only [lbind_ok]
    rw [hp]
    rfl
  · rw [if_neg h, if_neg h]
    rfl

theorem handle_exipiring_password_eq {s : Session} {u p : String}
    (hc : s.creds = some (u, p)) (r : Response) :
    handle_exipiring_password s r = .ok (expRun u p r) := by
  have hu : s.username = Except.ok u := by simp [Session.username, hc]
  have hp : s.password = Except.ok p := by simp [Session.password, hc]
  unfold handle_exipiring_password expRun
  by_cases h : r.url.path = "/Chpass/chpassservlet/main.htm"
  · rw [if_pos h, if_pos h, hu]
    simp only [lbind_ok]
    rw [hp]
    rfl
  · rw [if_neg h, if_neg h]
    rfl

theorem preHooks_ok {s : Session} {u p : String}
    (hc : s.creds = some (u, p)) (ssoForm : Response → Url) (r : Response) :
    preHooks s ssoForm r =
      .ok (preRun u p ssoForm r, (handle_throttling r).2) := by
  unfold preHooks preRun
  rcases hthr : handle_throttling r with ⟨r1, d⟩
  simp only [hthr]
  rw [handle_login_request_eq hc]
  simp only [lbind_ok]
  rw [handle_exipiring_password_eq hc]
  simp only [lbind_ok]
  rfl

theorem applyChain_of_preHooks {s : Session} {u p : String}
    (hc : s.creds = some (u, p)) (ssoForm : Response → Url) (r : Response) :
    applyChain s ssoForm r =
      (if isRedirect (preRun u p ssoForm r) = false ∧
          (preRun u p ssoForm r).url = urls.login then
        .error (.login (preRun u p ssoForm r).errmsg)
      else .ok (preRun u p ssoForm r, (handle_throttling r).2)) := by
  unfold applyChain
  rw [preHooks_ok hc]
  simp only [lbind_ok]
  unfold check_auth
  simp only [Bool.not_eq_true]
  by_cases h : isRedirect (preRun u p ssoForm r) = false ∧
      (preRun u p ssoForm r).url = urls.login
  · rw [if_pos h, if_pos h]
    simp only [lbind_err]
  · rw [if_neg h, if_neg h]
    simp only [lbind_ok]
    rfl

theorem handle_throttling_url (r : Response) :
    ((handle_throttling r).1).url = r.url := by
  unfold handle_throttling
  split <;> rfl

theorem loginRun_url (u p : String) (r : Response) :
    (loginRun u p r).url = r.url := by
  unfold loginRun
  split <;> rfl

theorem expRun_url (u p : String) (r : Response) :
    (expRun u p r).url = r.url := by
  unfold expRun
  split <;> rfl

theorem handle_sso_request_url (o : Response → Url) (r : Response) :
    (handle_sso_request o r).url = r.url := by
  unfold handle_sso_request
  split <;> rfl

theorem preRun_url (u p : String) (o : Response → Url) (r : Response) :
    (preRun u p o r).url = r.url := by
  unfold preRun
  rw [handle_sso_request_url, expRun_url, loginRun_url, handle_throttling_url]

/-- A final (post-hook) non-redirect response cannot sit on the IdP login
page `urls.loginpage`: with credentials set, `_handle_login_request` always
turns such a response into a redirect. -/
theorem preRun_not_loginpage (u p : String) (o : Response → Url)
    (r : Response) (hred : isRedirect (preRun u p o r) = false) :
    r.url ≠ urls.loginpage := by
  intro hr
  apply absurd hred
  unfold preRun
  have h1 : ((handle_throttling r).1).url = urls.loginpage := by
    rw [handle_throttling_url, hr]
  have h2 : loginRun u p (handle_throttling r).1 =
      redirect_to (handle_throttling r).1
        { urls.login with
          params := [("j_username", u), ("j_password", p)] } := by
    unfold loginRun
    rw [if_pos h1]
  rw [h2]
  have h3 : expRun u p (redirect_to (handle_throttling r).1
      { urls.login with
        params := [("j_username", u), ("j_password", p)] }) =
      redirect_to (handle_throttling r).1
        { urls.login with
          params := [("j_username", u), ("j_password", p)] } := by
    unfold expRun
    rw [if_neg (by
      rw [redirect_to_url, handle_throttling_url, hr]
      intro h
      exact absurd h (by decide))]
  rw [h3]
  unfold handle_sso_request
  rw [if_neg (by
    intro h
    have := h.1
    simp [isSuccess, redirect_to] at this)]
  simp [isRedirect_redirect_to]

theorem mkResponse_url (u : Url) (c : RespCore) : (mkResponse u c).url = u :=
  rfl

theorem handle_login_request_ok_shape {s : Session} {x y : Response}
    (h : handle_login_request s x = .ok y) :
    y = x ∨ ∃ t, y = redirect_to x t := by
  unfold handle_login_request at h
  by_cases hx : x.url = urls.loginpage
  · rw [if_pos hx] at h
    rcases hcr : s.creds with - | ⟨uu, pp⟩
    · simp only [Session.username, Session.password, hcr, lbind_err] at h
      cases h
    · simp only [Session.username, Session.password, hcr, lbind_ok] at h
      cases h
      exact .inr ⟨_, rfl⟩
  · rw [if_neg hx] at h
    cases h
    exact .inl rfl

theorem handle_exipiring_password_ok_shape {s : Session} {x y : Response}
    (h : handle_exipiring_password s x = .ok y) :
    y = x ∨ ∃ t, y = redirect_to x t := by
  unfold handle_exipiring_password at h
  by_cases hx : x.url.path = "/Chpass/chpassservlet/main.htm"
  · rw [if_pos hx] at h
    rcases hcr : s.creds with - | ⟨uu, pp⟩
    · simp only [Session.username, Session.password, hcr, lbind_err] at h
      cases h
    · simp only [Session.username, Session.password, hcr, lbind_ok] at h
      cases h
      exact .inr ⟨_, rfl⟩
  · rw [if_neg hx] at h
    cases h
    exact .inl rfl

theorem handle_sso_request_shape (o : Response → Url) (x : Response) :
    handle_sso_request o x = x ∨
      ∃ t, handle_sso_request o x = redirect_to x t := by
  unfold handle_sso_request
  split
  · exact .inr ⟨_, rfl⟩
  · exact .inl rfl

theorem applyChain_ok_shape {s : Session} {o : Response → Url}
    {r r' : Response} {d : Nat} (h : applyChain s o r = .ok (r', d)) :
    ∃ r2 r3, handle_login_request s (handle_throttling r).1 = .ok r2 ∧
      handle_exipiring_password s r2 = .ok r3 ∧
      r' = handle_sso_request o r3 ∧
      check_auth r' = .ok () := by
  unfold applyChain preHooks at h
  rcases hthr : handle_throttling r with ⟨r1, dd⟩
  simp only [hthr] at h
  rcases hl : handle_login_request s r1 with e | r2
  · simp only [hl, lbind_err] at h
    cases h
  · simp only [hl, lbind_ok] at h
    rcases he : handle_exipiring_password s r2 with e | r3
    · simp only [he, lbind_err] at h
      cases h
    · simp only [he, lbind_ok, pure_bind] at h
      rcases hch : check_auth (handle_sso_request o r3) with e | u
      · simp only [hch, lbind_err] at h
        cases h
      · simp only [hch, lbind_ok] at h
        cases u
        cases h
        exact ⟨r2, r3, by simp [hl], by simp [he], rfl, by simp [hch]⟩

theorem chain_ok_no502 {s : Session} {o : Response → Url}
    {r r' : Response} {d : Nat} (h : applyChain s o r = .ok (r', d))
    (hred : isRedirect r' = false) : r'.status ≠ 502 := by
  obtain ⟨r2, r3, hl, he, hr', -⟩ := applyChain_ok_shape h
  have pstep : ∀ x y : Response, (y = x ∨ ∃ t, y = redirect_to x t) →
      (isRedirect x = true ∨ x.status ≠ 502) →
      (isRedirect y = true ∨ y.status ≠ 502) := by
    rintro x y (rfl | ⟨t, rfl⟩) hx
    · exact hx
    · exact .inl (isRedirect_redirect_to x t)
  have p1 : isRedirect (handle_throttling r).1 = true ∨
      ((handle_throttling r).1).status ≠ 502 := by
    unfold handle_throttling
    by_cases h5 : r.status = 502
    · rw [if_pos h5]
      exact .inl (isRedirect_redirect_to _ _)
    · rw [if_neg h5]
      exact .inr h5
  have p2 := pstep _ _ (handle_login_request_ok_shape hl) p1
  have p3 := pstep _ _ (handle_exipiring_password_ok_shape he) p2
  have p3s := pstep _ _ (handle_sso_request_shape o r3) p3
  have p4 := pstep _ _ (.inl hr') p3s
  rcases p4 with hh | hh
  · rw [hred] at hh
    cases hh
  · exact hh

theorem check_auth_ok_not_login {r : Response}
    (h : check_auth r = .ok ()) (hred : isRedirect r = false) :
    r.url ≠ urls.login := by
  unfold check_auth at h
  intro hurl
  rw [if_pos ⟨by simp [hred], hurl⟩] at h
  cases h

/-- Any response actually returned by the driven exchange is a
non-redirect, does not sit on the login submission URL, and is never a
502. -/
theorem drive_ok_result {s : Session} {o : Response → Url}
    {net : Nat → RespCore} :
    ∀ (fuel i : Nat) (req : Request) (rr : Response),
      (drive s o net fuel i req).result = .ok rr →
      isRedirect rr = false ∧ rr.url ≠ urls.login ∧ rr.status ≠ 502 := by
  intro fuel
  induction fuel with
  | zero =>
    intro i req rr h
    simp [drive] at h
  | succ fuel ih =>
    intro i req rr h
    rw [drive] at h
    rcases hch : applyChain s o
        (mkResponse (catch_forced_redirect req).url (net i)) with e | ⟨r', d⟩
    · simp only [hch] at h
      cases h
    · simp only [hch] at h
      by_cases hred : isRedirect r' = true
      · rw [if_pos hred] at h
        rcases hl : r'.location with - | l
        · exfalso
          unfold isRedirect at hred
          rw [hl] at hred
          simp at hred
        · rw [hl] at h
          simp only at h
          exact ih (i + 1) ⟨.get, l, []⟩ rr h
      · rw [if_neg hred] at h
        simp only at h
        injection h with h'
        subst h'
        have hredf : isRedirect r' = false := by
          simpa using hred
        obtain ⟨-, -, -, -, -, hcheck⟩ := applyChain_ok_shape hch
        exact ⟨hredf, check_auth_ok_not_login hcheck hredf,
          chain_ok_no502 hch hredf⟩

/-- **C1** (confirmed): with credentials set, an exchange raises
`LoginError` exactly when the final (post-hook, non-redirect) response
sits on the login page URL — `urls.login`, the IdP URL that re-serves the
login form (with its `loginerror` element) after a failed authentication.
The pre-`check_auth` hooks never change a response's URL; a final
non-redirect response can never sit on `urls.loginpage` (the login hook
always converts such a response into a redirect); and every response
actually returned to the caller is a non-redirect whose URL differs from
`urls.login`, returned without an auth error. -/
theorem c1_auth_error_iff (s : Session) (ssoForm : Response → Url)
    (u p : String) (hc : s.creds = some (u, p)) :
    (∀ r : Response, preHooks s ssoForm r =
      .ok (preRun u p ssoForm r, (handle_throttling r).2)) ∧
    (∀ r : Response,
      (∃ e, applyChain s ssoForm r = .error e) ↔
        isRedirect (preRun u p ssoForm r) = false ∧
          (preRun u p ssoForm r).url = urls.login) ∧
    (∀ r : Response, (preRun u p ssoForm r).url = r.url) ∧
    (∀ r : Response, isRedirect (preRun u p ssoForm r) = false →
      r.url ≠ urls.loginpage) ∧
    (∀ (net : Nat → RespCore) (fuel i : Nat) (req : Request) (rr : Response),
      (drive s ssoForm net fuel i req).result = .ok rr →
      isRedirect rr = false ∧ rr.url ≠ urls.login) := by
  refine ⟨fun r => preHooks_ok hc ssoForm r, fun r => ?_,
    fun r => preRun_url u p ssoForm r,
    fun r => preRun_not_loginpage u p ssoForm r,
    fun net fuel i req rr h => ⟨(drive_ok_result fuel i req rr h).1,
      (drive_ok_result fuel i req rr h).2.1⟩⟩
  rw [applyChain_of_preHooks hc]
  by_cases h : isRedirect (preRun u p ssoForm r) = false ∧
      (preRun u p ssoForm r).url = urls.login
  · rw [if_pos h]
    exact ⟨fun _ => h, fun _ => ⟨_, rfl⟩⟩
  · rw [if_neg h]
    constructor
    · rintro ⟨e, he⟩
      cases he
    · intro hh
      exact absurd hh h

/-- **C1** witness: a session signed in as `("u", "p")` and a concrete
non-redirect 200 response sitting on `urls.login` (the re-served login
form carrying the portal's error message): the exchange fails with
`LoginError`. -/
theorem c1_auth_error_iff_witness :
    ((∃ e, applyChain ⟨some ("u", "p")⟩ (fun _ => urls.login)
        ⟨urls.login, 200, none, "Bad credentials"⟩ = .error e) ↔
      isRedirect (preRun "u" "p" (fun _ => urls.login)
          ⟨urls.login, 200, none, "Bad credentials"⟩) = false ∧
        (preRun "u" "p" (fun _ => urls.login)
          ⟨urls.login, 200, none, "Bad credentials"⟩).url = urls.login) ∧
    (preRun "u" "p" (fun _ => urls.login)
        ⟨urls.login, 200, none, "Bad credentials"⟩).url =
      (⟨urls.login, 200, none, "Bad credentials"⟩ : Response).url :=
  ⟨(c1_auth_error_iff ⟨some ("u", "p")⟩ (fun _ => urls.login) "u" "p"
      rfl).2.1 ⟨urls.login, 200, none, "Bad credentials"⟩,
   (c1_auth_error_iff ⟨some ("u", "p")⟩ (fun _ => urls.login) "u" "p"
      rfl).2.2.1 ⟨urls.login, 200, none, "Bad credentials"⟩⟩

/-! ### The 502 throttling retry loop -/

theorem handle_throttling_502 (u : Url) (c : RespCore) (h5 : c.status = 502) :
    handle_throttling (mkResponse u c) = (redirect_to (mkResponse u c) u, 5) := by
  unfold handle_throttling
  rw [if_pos (show (mkResponse u c).status = 502 from h5)]
  rfl

theorem handle_throttling_other (u : Url) (c : RespCore)
    (h5 : c.status ≠ 502) :
    handle_throttling (mkResponse u c) = (mkResponse u c, 0) := by
  unfold handle_throttling
  rw [if_neg (show ¬ (mkResponse u c).status = 502 from h5)]

theorem handle_login_request_skip (s : Session) (x : Response)
    (hx : x.url ≠ urls.loginpage) :
    handle_login_request s x = .ok x := by
  unfold handle_login_request
  rw [if_neg hx]
  rfl

theorem handle_exipiring_password_skip (s : Session) (x : Response)
    (hx : x.url.path ≠ "/Chpass/chpassservlet/main.htm") :
    handle_exipiring_password s x = .ok x := by
  unfold handle_exipiring_password
  rw [if_neg hx]
  rfl

theorem handle_sso_request_skip (o : Response → Url) (x : Response)
    (hx : x.url.path ≠ "/idp/profile/SAML2/Redirect/SSO") :
    handle_sso_request o x = x := by
  unfold handle_sso_request
  rw [if_neg (by rintro ⟨-, h⟩; exact hx h)]

theorem handle_sso_request_skip_status (o : Response → Url) (x : Response)
    (hx : isSuccess x = false) : handle_sso_request o x = x := by
  unfold handle_sso_request
  rw [if_neg (by rintro ⟨h, -⟩; rw [hx] at h; exact absurd h (by decide))]

theorem check_auth_skip_url (x : Response) (hx : x.url ≠ urls.login) :
    check_auth x = .ok () := by
  unfold check_auth
  rw [if_neg (by rintro ⟨-, h⟩; exact hx h)]

theorem check_auth_skip_redirect (x : Response)
    (hx : isRedirect x = true) : check_auth x = .ok () := by
  unfold check_auth
  rw [if_neg (by rintro ⟨h, -⟩; rw [hx] at h; exact h rfl)]

/-- A throttled (502) response at a URL away from the login endpoints
leaves the hook chain as a synthetic redirect to its own URL, after a
5-second sleep. -/
theorem applyChain_502 (s : Session) (o : Response → Url) (u : Url)
    (c : RespCore) (h5 : c.status = 502) (hu1 : u ≠ urls.loginpage)
    (hu2 : u.path ≠ "/Chpass/chpassservlet/main.htm") :
    applyChain s o (mkResponse u c) =
      .ok (redirect_to (mkResponse u c) u, 5) := by
  unfold applyChain preHooks
  simp only [handle_throttling_502 u c h5]
  rw [handle_login_request_skip s _ (by rw [redirect_to_url, mkResponse_url]; exact hu1)]
  simp only [lbind_ok]
  rw [handle_exipiring_password_skip s _ (by rw [redirect_to_url, mkResponse_url]; exact hu2)]
  simp only [lbind_ok, pure_bind]
  rw [handle_sso_request_skip_status o (redirect_to (mkResponse u c) u) (by rfl)]
  rw [check_auth_skip_redirect _ (isRedirect_redirect_to _ _)]
  rfl

/-- A non-502 response with no `Location` header at a URL away from the
login, password-expiry, SSO and POST-binding endpoints passes the hook
chain untouched. -/
theorem applyChain_final (s : Session) (o : Response → Url) (u : Url)
    (c : RespCore) (h5 : c.status ≠ 502) (_hloc : c.location = none)
    (hu1 : u ≠ urls.loginpage)
    (hu2 : u.path ≠ "/Chpass/chpassservlet/main.htm")
    (hu3 : u.path ≠ "/idp/profile/SAML2/Redirect/SSO")
    (hu4 : u ≠ urls.login) :
    applyChain s o (mkResponse u c) = .ok (mkResponse u c, 0) := by
  unfold applyChain preHooks
  simp only [handle_throttling_other u c h5]
  rw [handle_login_request_skip s _ (show (mkResponse u c).url ≠ urls.loginpage from hu1)]
  simp only [lbind_ok]
  rw [handle_exipiring_password_skip s _ (show (mkResponse u c).url.path ≠ _ from hu2)]
  simp only [lbind_ok, pure_bind]
  rw [handle_sso_request_skip o _ (show (mkResponse u c).url.path ≠ _ from hu3)]
  rw [check_auth_skip_url _ (show (mkResponse u c).url ≠ urls.login from hu4)]
  rfl

theorem catch_forced_redirect_skip (u : Url)
    (hu5 : stripParams u ≠ urls.login)
    (hu6 : u.path ≠ "/Shibboleth.sso/SAML2/POST") :
    catch_forced_redirect ⟨.get, u, []⟩ = ⟨.get, u, []⟩ := by
  unfold catch_forced_redirect
  rw [if_neg (by rintro ⟨h, -⟩; exact hu5 h), if_neg hu6]

theorem isRedirect_final (u : Url) (c : RespCore) (hloc : c.location = none) :
    isRedirect (mkResponse u c) = false := by
  unfold isRedirect
  simp [mkResponse, hloc]

/-- The retry trace: `n` consecutive 502 responses at a neutral URL are
each turned into a redirect-to-self and refetched after a 5-second sleep;
the first non-502 response ends the exchange. -/
theorem drive_502_trace (s : Session) (o : Response → Url) (u : Url)
    (net : Nat → RespCore)
    (hu1 : u ≠ urls.loginpage)
    (hu2 : u.path ≠ "/Chpass/chpassservlet/main.htm")
    (hu3 : u.path ≠ "/idp/profile/SAML2/Redirect/SSO")
    (hu4 : u ≠ urls.login)
    (hu5 : stripParams u ≠ urls.login)
    (hu6 : u.path ≠ "/Shibboleth.sso/SAML2/POST") :
    ∀ (n i : Nat), (∀ j, j < n → (net (i + j)).status = 502) →
      (net (i + n)).status ≠ 502 → (net (i + n)).location = none →
      drive s o net (n + 1) i ⟨.get, u, []⟩ =
        ⟨.ok (mkResponse u (net (i + n))),
          List.replicate (n + 1) ⟨.get, u, []⟩, 5 * n⟩ := by
  intro n
  induction n with
  | zero =>
    intro i h502 hstat hloc
    rw [show i + 0 = i from rfl] at hstat hloc
    rw [drive]
    simp only [catch_forced_redirect_skip u hu5 hu6]
    rw [applyChain_final s o u (net i) hstat hloc hu1 hu2 hu3 hu4]
    simp only [isRedirect_final u (net i) hloc]
    rfl
  | succ n ih =>
    intro i h502 hstat hloc
    have h5 : (net i).status = 502 := by
      have := h502 0 (by omega)
      simpa using this
    rw [drive]
    simp only [catch_forced_redirect_skip u hu5 hu6]
    rw [applyChain_502 s o u (net i) h5 hu1 hu2]
    simp only [isRedirect_redirect_to]
    have hlocr : (redirect_to (mkResponse u (net i)) u).location = some u :=
      rfl
    simp only [hlocr]
    have ihi := ih (i + 1)
      (fun j hj => by
        have := h502 (j + 1) (by omega)
        rwa [show i + (j + 1) = i + 1 + j by omega] at this)
      (by rwa [show i + 1 + n = i + (n + 1) by omega])
      (by rwa [show i + 1 + n = i + (n + 1) by omega])
    rw [ihi]
    have hidx : i + 1 + n = i + (n + 1) := by omega
    rw [hidx]
    simp only [DriveOut.mk.injEq, List.replicate_succ]
    rw [if_pos trivial, show 5 + 5 * n = 5 * (n + 1) from by omega]

/-- **C3** (confirmed): a 502 response is turned into a synthetic
redirect to its own URL after a fixed 5-second sleep, so the exchange
re-issues the identical GET request to the same URL; with `n` injected
502s followed by a non-502 response, the driver issues exactly `n + 1`
identical requests, sleeps `5 * n` seconds in total, returns the first
non-502 response, and no retry cap is imposed by the code (the theorem
holds for every `n`; the fuel argument is only the modelling bound).  A
502 is never surfaced: every response returned to the caller has a
non-502 status. -/
theorem c3_throttle_retry (s : Session) (ssoForm : Response → Url)
    (u : Url) (net : Nat → RespCore) (n i : Nat)
    (hu1 : u ≠ urls.loginpage)
    (hu2 : u.path ≠ "/Chpass/chpassservlet/main.htm")
    (hu3 : u.path ≠ "/idp/profile/SAML2/Redirect/SSO")
    (hu4 : u ≠ urls.login)
    (hu5 : stripParams u ≠ urls.login)
    (hu6 : u.path ≠ "/Shibboleth.sso/SAML2/POST")
    (h502 : ∀ j, j < n → (net (i + j)).status = 502)
    (hstat : (net (i + n)).status ≠ 502)
    (hloc : (net (i + n)).location = none) :
    drive s ssoForm net (n + 1) i ⟨.get, u, []⟩ =
      ⟨.ok (mkResponse u (net (i + n))),
        List.replicate (n + 1) ⟨.get, u, []⟩, 5 * n⟩ ∧
    (∀ (net2 : Nat → RespCore) (fuel j : Nat) (req : Request)
        (rr : Response),
      (drive s ssoForm net2 fuel j req).result = .ok rr →
      rr.status ≠ 502) := by
  refine ⟨?_, ?_⟩
  · exact drive_502_trace s ssoForm u net hu1 hu2 hu3 hu4 hu5 hu6 n i h502
      hstat hloc
  · intro net2 fuel j req rr h
    exact (drive_ok_result fuel j req rr h).2.2

/-- **C3** witness: three injected 502s at a material next-level URL, then
a 200: the exchange issues four identical GET requests, sleeps 15 seconds
in total, and returns the 200 response. -/
theorem c3_throttle_retry_witness :
    drive ⟨some ("u", "p")⟩ (fun _ => urls.login)
        (fun k => if k < 3 then (⟨502, none, ""⟩ : RespCore)
          else ⟨200, none, ""⟩) 4 0
        ⟨.get, ⟨"didattica.polito.it",
          "/pls/portal30/sviluppo.materiale.next_level", [("inc", "1")]⟩,
          []⟩ =
      ⟨.ok (mkResponse ⟨"didattica.polito.it",
          "/pls/portal30/sviluppo.materiale.next_level", [("inc", "1")]⟩
          ⟨200, none, ""⟩),
        List.replicate 4 ⟨.get, ⟨"didattica.polito.it",
          "/pls/portal30/sviluppo.materiale.next_level", [("inc", "1")]⟩,
          []⟩,
        15⟩ := by
  have h := (c3_throttle_retry ⟨some ("u", "p")⟩ (fun _ => urls.login)
    ⟨"didattica.polito.it", "/pls/portal30/sviluppo.materiale.next_level",
      [("inc", "1")]⟩
    (fun k => if k < 3 then (⟨502, none, ""⟩ : RespCore) else ⟨200, none, ""⟩)
    3 0 (by decide) (by decide) (by decide) (by decide) (by decide)
    (by decide)
    (by intro j hj; simp [Nat.zero_add, hj])
    (by decide) (by decide)).1
  exact h

end Politodown
